import Mathlib

set_option maxRecDepth 8192

/-!
Shallow embedding of the vvms multi-camera capture/record pipeline
(src/camera_manager.py and src/recoder.py) and proofs about it.

Frames, clock readings and contour areas are abstracted; times are
rationals.  OpenCV primitives appear as an explicit environment whose
calls may fail (modelled by Option), matching the try/except structure
of the source.
-/

namespace VVMS

/-- An abstract decoded frame: an identity plus its pixel shape
(the pair compared with the target resolution in process_frame). -/
structure Frame where
  fid : Nat
  shape : Nat × Nat
deriving DecidableEq

/-! Bounded frame buffers (claim C6).  A queue.Queue is its list of
elements together with a capacity. -/

/-- Non-blocking enqueue: the source guards every put with a fullness
check (if not buffer.full then buffer.put frame), so a full buffer is
left unchanged and the frame is dropped; the call always returns. -/
def enqueueFrame (cap : Nat) (buf : List Frame) (f : Frame) : List Frame :=
  if buf.length < cap then buf ++ [f] else buf

/-- The buffer-and-emit step of the streaming loop in CameraThread.run
(src/camera_manager.py lines 94-99): non-blocking enqueue into the
capacity-30 buffer, then the processed frame is emitted via frame_ready
regardless of buffer state.  Returns (new buffer, emitted frame). -/
def captureBufferStep (buf : List Frame) (f : Frame) : List Frame × Frame :=
  (enqueueFrame 30 buf f, f)

/-- The method RecorderThread.add_frame (src/recoder.py lines 380-383):
non-blocking enqueue into the capacity-300 recording buffer. -/
def add_frame (buf : List Frame) (f : Frame) : List Frame :=
  enqueueFrame 300 buf f

/-! Frame pacing (claim C7). -/

/-- Frame pacing of CameraThread.run (src/camera_manager.py lines 71-101):
given the pacing interval and the clock reading at the last accepted
frame, the loop skips a reading t when t - last < frame_interval and
otherwise accepts it, setting last_frame_time to t.  The result is the
list of accepted clock readings in order. -/
def paceAccept (interval : ℚ) : ℚ → List ℚ → List ℚ
  | _, [] => []
  | last, t :: ts =>
    if t - last < interval then paceAccept interval last ts
    else t :: paceAccept interval t ts

/-! Motion detection (claim C8). -/

/-- The contour loop of CameraThread.detect_motion (src/camera_manager.py
lines 145-166): given the areas of the extracted contours, the source
returns True as soon as some contourArea is STRICTLY greater than
min_motion_area, and False otherwise. -/
def detect_motion (min_motion_area : ℚ) (areas : List ℚ) : Bool :=
  areas.any fun a => decide (min_motion_area < a)

/-! Frame processing (claim C5). -/

/-- Processing configuration entries read by process_frame from the
config dict of the worker. -/
structure ProcConfig where
  resolution : Nat × Nat
  denoise : Bool
  sharpen : Bool
  brightness : Int
deriving DecidableEq

/-- The OpenCV primitives used by process_frame, as an abstract
environment; a result of none models the call raising an exception. -/
structure CvEnv where
  resize : Frame → Nat × Nat → Option Frame
  denoise : Frame → Option Frame
  sharpen : Frame → Option Frame
  convertScaleAbs : Frame → Int → Option Frame

/-- The method CameraThread.process_frame (src/camera_manager.py lines
120-143).  The body rebinds the local variable frame after each step
(resize when the shape differs from the target resolution, then optional
denoise, sharpen, brightness); the except handler emits a non-fatal
processing error and returns the CURRENT value of that local variable.
Result: (returned frame, whether an error was emitted). -/
def process_frame (env : CvEnv) (cfg : ProcConfig) (frame0 : Frame) :
    Frame × Bool :=
  match (if frame0.shape = cfg.resolution then some frame0
         else env.resize frame0 cfg.resolution) with
  | none => (frame0, true)
  | some f1 =>
    match (if cfg.denoise then env.denoise f1 else some f1) with
    | none => (f1, true)
    | some f2 =>
      match (if cfg.sharpen then env.sharpen f2 else some f2) with
      | none => (f2, true)
      | some f3 =>
        match (if cfg.brightness = 0 then some f3
               else env.convertScaleAbs f3 cfg.brightness) with
        | none => (f3, true)
        | some f4 => (f4, false)

/-- The value process_frame would produce if every step succeeded:
the full pipeline as an Option, none when some step raises. -/
def fullProcess (env : CvEnv) (cfg : ProcConfig) (frame0 : Frame) :
    Option Frame :=
  (if frame0.shape = cfg.resolution then some frame0
   else env.resize frame0 cfg.resolution).bind fun f1 =>
  (if cfg.denoise then env.denoise f1 else some f1).bind fun f2 =>
  (if cfg.sharpen then env.sharpen f2 else some f2).bind fun f3 =>
  (if cfg.brightness = 0 then some f3
   else env.convertScaleAbs f3 cfg.brightness)

/-- The chain of values taken by the local variable frame inside
process_frame, in order, for as long as steps succeed. -/
def processChain (env : CvEnv) (cfg : ProcConfig) (frame0 : Frame) :
    List Frame :=
  frame0 ::
  match (if frame0.shape = cfg.resolution then some frame0
         else env.resize frame0 cfg.resolution) with
  | none => []
  | some f1 =>
    f1 ::
    match (if cfg.denoise then env.denoise f1 else some f1) with
    | none => []
    | some f2 =>
      f2 ::
      match (if cfg.sharpen then env.sharpen f2 else some f2) with
      | none => []
      | some f3 =>
        f3 ::
        match (if cfg.brightness = 0 then some f3
               else env.convertScaleAbs f3 cfg.brightness) with
        | none => []
        | some f4 => [f4]

/-- A concrete OpenCV environment in which resize succeeds (producing a
frame at the target resolution) and denoise raises. -/
def cexEnv : CvEnv where
  resize := fun _ _ => some ⟨1, (20, 20)⟩
  denoise := fun _ => none
  sharpen := fun f => some f
  convertScaleAbs := fun f _ => some f

/-! Recorder main loop and segment rotation (claim C2). -/

/-- A frame together with the wall-clock reading the recorder observes
for it in the main loop (the time.time call of the rotation check). -/
structure TimedFrame where
  frame : Frame
  t : ℚ
deriving DecidableEq

/-- The main loop of RecorderThread.run over a drained FIFO of frames
(src/recoder.py lines 330-345).  Each popped frame is written to the
CURRENT segment by writer.write; only AFTER the write does the loop test
time.time - segment_start_time >= segment_duration and, when it holds,
call start_new_segment and reset segment_start_time.  Arguments: segment
duration, index of the current segment, segment_start_time, the frames.
Result: the (frame, segment index it was written to) pairs in write
order. -/
def recordFrames (segDur : ℚ) : Nat → ℚ → List TimedFrame → List (Frame × Nat)
  | seg, segStart, [] =>
    let _ := seg
    let _ := segStart
    []
  | seg, segStart, tf :: rest =>
    if segDur ≤ tf.t - segStart then
      (tf.frame, seg) :: recordFrames segDur (seg + 1) tf.t rest
    else
      (tf.frame, seg) :: recordFrames segDur seg segStart rest

/-! Connection retry loop (claim C3). -/

/-- Observable emissions and sleeps of the error path of
CameraThread.run. -/
inductive CamEvent
  /-- status_changed(camera_id, False), from handle_error. -/
  | statusFalse
  /-- error_occurred(camera_id, message) with the exception text, from
  handle_error. -/
  | errorMsg
  /-- time.sleep(retry_interval). -/
  | sleepRetry
  /-- error_occurred(camera_id, maximum-retry-attempts-reached): the
  terminal error, followed by break. -/
  | terminalError
  /-- status_changed(camera_id, True) on a successful open. -/
  | statusTrue
deriving DecidableEq

/-- The connect/retry structure of CameraThread.run (src/camera_manager.py
lines 52-118).  Each element of the attempt list is one connection
attempt, true meaning it fails.  On a failure the source runs
handle_error (status false then an error message), then tests
retry_count >= max_retries: if it holds it emits the terminal error and
breaks; otherwise it sleeps retry_interval, increments retry_count and
continues.  On a success it emits status true and resets retry_count
to 0.  Arguments: max_retries, current retry_count, attempts.  Result:
(events in order, whether the loop was stopped by the terminal error). -/
def camRetryRun (max_retries : Nat) : Nat → List Bool → List CamEvent × Bool
  | _, [] => ([], false)
  | retry_count, fail :: rest =>
    if fail then
      if max_retries ≤ retry_count then
        ([.statusFalse, .errorMsg, .terminalError], true)
      else
        let r := camRetryRun max_retries (retry_count + 1) rest
        (.statusFalse :: .errorMsg :: .sleepRetry :: r.1, r.2)
    else
      let r := camRetryRun max_retries 0 rest
      (.statusTrue :: r.1, r.2)

/-! Metadata store (claims C1 and C4). -/

/-- A row of the recordings table, as created by init_database
(src/recoder.py lines 41-78). -/
structure RecordingRow where
  camera_id : String
  start_time : ℚ
  end_time : Option ℚ
  file_path : String
  file_size : Option Nat
  duration : Option ℚ
deriving DecidableEq

/-- The method RecordingManager.update_recording_metadata (src/recoder.py
lines 218-237): an UPDATE setting end_time, file_size and duration on
the rows matching camera_id, file_path and start_time.  No row is ever
inserted by it. -/
def update_recording_metadata (db : List RecordingRow) (camera_id : String)
    (start_time end_time : ℚ) (file_path : String) (file_size : Nat)
    (duration : ℚ) : List RecordingRow :=
  db.map fun r =>
    if r.camera_id = camera_id ∧ r.file_path = file_path ∧
        r.start_time = start_time then
      { r with end_time := some end_time, file_size := some file_size,
               duration := some duration }
    else r

/-- The rows of the store that are open (end_time still null) for a
given camera. -/
def openRows (db : List RecordingRow) (camera_id : String) :
    List RecordingRow :=
  db.filter fun r => r.camera_id == camera_id && r.end_time.isNone

/-- The method RecorderThread.create_file_path (src/recoder.py lines
354-358): the segment path is derived from camera_id and the formatted
current timestamp. -/
def create_file_path (camera_id ts : String) : String :=
  camera_id ++ "_" ++ ts ++ ".mp4"

/-- The per-recorder state mutated by RecorderThread. -/
structure RecorderState where
  camera_id : String
  is_recording : Bool
  start_time : Option ℚ
  end_time : Option ℚ
  file_path : Option String
  writerOpen : Bool
deriving DecidableEq

/-- The state RecorderThread.__init__ leaves (src/recoder.py lines
272-293): not recording, no times, no file, no writer. -/
def RecorderState.init (camera_id : String) : RecorderState where
  camera_id := camera_id
  is_recording := false
  start_time := none
  end_time := none
  file_path := none
  writerOpen := false

/-- The startup section of RecorderThread.run (src/recoder.py lines
310-328): sets is_recording, takes start_time := now, derives the
segment file path from camera_id and the timestamp, and opens the video
writer.  The metadata store is returned unchanged: the source contains
no INSERT into the recordings table. -/
def recorderRunStart (r : RecorderState) (now : ℚ) (ts : String)
    (db : List RecordingRow) : RecorderState × List RecordingRow :=
  ({ r with is_recording := true, start_time := some now,
            file_path := some (create_file_path r.camera_id ts),
            writerOpen := true }, db)

/-- A full start-then-stop recording lifecycle for one camera against
the store: RecorderThread.run startup at time t0, then end_recording at
time t1 followed by handle_recording_finished, which calls
update_recording_metadata with the recorded start_time, file_path, size
and duration (src/recoder.py lines 125-145 and 389-394).  Result: the
final store. -/
def recorderLifecycle (camera_id : String) (t0 t1 : ℚ) (ts : String)
    (file_size : Nat) (db : List RecordingRow) : List RecordingRow :=
  let s := recorderRunStart (RecorderState.init camera_id) t0 ts db
  update_recording_metadata s.2 camera_id t0 t1
    (create_file_path camera_id ts) file_size (t1 - t0)

/-! Storage cleanup (claim C4).  The file system is the list of paths
that currently exist. -/

/-- Insertion of a row into a start_time-ascending list, used to model
ORDER BY start_time ASC. -/
def insertByStart (r : RecordingRow) : List RecordingRow → List RecordingRow
  | [] => [r]
  | x :: xs =>
    if r.start_time ≤ x.start_time then r :: x :: xs
    else x :: insertByStart r xs

/-- Sorting by start_time ascending (ORDER BY start_time ASC). -/
def sortByStart : List RecordingRow → List RecordingRow
  | [] => []
  | x :: xs => insertByStart x (sortByStart xs)

/-- The per-path loop of cleanup_old_recordings (src/recoder.py lines
202-210): for each selected file_path, IF the file exists the source
removes the file and then deletes the recordings rows with that
file_path; when the file does not exist the iteration does nothing, so
the row stays in the store.  Arguments: the file system, the store, the
selected paths in order.  Result: (final file system, final store,
paths whose files were deleted, in deletion order). -/
def cleanupLoop (fs : List String) (db : List RecordingRow) :
    List String → List String × List RecordingRow × List String
  | [] => (fs, db, [])
  | p :: ps =>
    if p ∈ fs then
      let r := cleanupLoop (fs.filter fun q => q != p)
        (db.filter fun row => row.file_path != p) ps
      (r.1, r.2.1, p :: r.2.2)
    else
      cleanupLoop fs db ps

/-- The method RecordingManager.cleanup_old_recordings (src/recoder.py
lines 185-216): select the file paths of the rows with
start_time < cutoff (cutoff is now minus 30 days) ordered by start_time
ascending, then run the per-path loop. -/
def cleanup_old_recordings (cutoff : ℚ) (fs : List String)
    (db : List RecordingRow) :
    List String × List RecordingRow × List String :=
  cleanupLoop fs db
    ((sortByStart (db.filter fun r => decide (r.start_time < cutoff))).map
      (·.file_path))

/-! Camera configuration and reconfiguration (claim C9). -/

/-- A camera configuration dict: each entry optional (a missing key). -/
structure CamConfig where
  fps_limit : Option ℚ := none
  resolution : Option (Nat × Nat) := none
  motion_detection : Option Bool := none
  motion_threshold : Option ℚ := none
  min_motion_area : Option ℚ := none
  denoise : Option Bool := none
  sharpen : Option Bool := none
  brightness : Option Int := none
deriving DecidableEq

/-- One entry of dict.update: a key present in the new dict overwrites,
an absent one keeps the old value. -/
def updEntry {α : Type} (old new : Option α) : Option α :=
  match new with
  | some v => some v
  | none => old

/-- dict.update applied to a whole camera configuration. -/
def CamConfig.update (old new : CamConfig) : CamConfig where
  fps_limit := updEntry old.fps_limit new.fps_limit
  resolution := updEntry old.resolution new.resolution
  motion_detection := updEntry old.motion_detection new.motion_detection
  motion_threshold := updEntry old.motion_threshold new.motion_threshold
  min_motion_area := updEntry old.min_motion_area new.min_motion_area
  denoise := updEntry old.denoise new.denoise
  sharpen := updEntry old.sharpen new.sharpen
  brightness := updEntry old.brightness new.brightness

/-- The attribute state of a CameraThread: the config dict it keeps,
plus the parameters CameraThread.__init__ reads out of the dict ONCE at
construction (src/camera_manager.py lines 27-45) and which the run loop
uses thereafter. -/
structure CameraThread where
  config : CamConfig
  fps_limit : ℚ
  frame_interval : ℚ
  resolution : Nat × Nat
  motion_detection_enabled : Bool
  motion_threshold : ℚ
  min_motion_area : ℚ
deriving DecidableEq

/-- CameraThread.__init__ (src/camera_manager.py lines 15-50): caches
fps_limit (default 30), frame_interval = 1 / fps_limit, resolution
(default 1280 x 720) and the motion-detection settings out of the
config dict. -/
def CameraThread.init (cfg : CamConfig) : CameraThread where
  config := cfg
  fps_limit := cfg.fps_limit.getD 30
  frame_interval := 1 / cfg.fps_limit.getD 30
  resolution := cfg.resolution.getD (1280, 720)
  motion_detection_enabled := cfg.motion_detection.getD false
  motion_threshold := cfg.motion_threshold.getD 25
  min_motion_area := cfg.min_motion_area.getD 500

/-- The per-worker effect of CameraManager.update_config
(src/camera_manager.py line 235): camera.config.update(config).  Only
the config dict is touched; no cached attribute is recomputed. -/
def CameraThread.applyConfigUpdate (c : CameraThread) (new : CamConfig) :
    CameraThread :=
  { c with config := c.config.update new }

/-- The manager state: the config shared by new cameras and the map of
live workers (src/camera_manager.py lines 203-206), as an association
list. -/
structure CameraManager where
  config : CamConfig
  cameras : List (String × CameraThread)
deriving DecidableEq

/-- CameraManager.update_config (src/camera_manager.py lines 231-235):
merge the new entries into the manager config and into the config dict
of every live worker. -/
def CameraManager.update_config (m : CameraManager) (new : CamConfig) :
    CameraManager where
  config := m.config.update new
  cameras := m.cameras.map fun p => (p.1, p.2.applyConfigUpdate new)

/-! Worker registry (claim C10). -/

/-- A worker handle for the registry model: an identity plus whether its
thread is running (stop joins the thread and clears it). -/
structure Worker where
  wid : Nat
  running : Bool
deriving DecidableEq

/-- Dictionary lookup on the registry association list. -/
def lookupCam : List (String × Worker) → String → Option Worker
  | [], _ => none
  | (k, w) :: rest, id => if k = id then some w else lookupCam rest id

/-- Number of registry entries held under a given camera_id. -/
def countKey (m : List (String × Worker)) (id : String) : Nat :=
  (m.filter fun p => p.1 == id).length

/-- CameraManager.remove_camera (src/camera_manager.py lines 221-225):
when the camera_id is present, stop the worker (stop sets running false,
wakes the thread and joins it) and delete the dict entry.  Result: (new
registry, the workers that were stopped). -/
def remove_camera (m : List (String × Worker)) (id : String) :
    List (String × Worker) × List Worker :=
  match lookupCam m id with
  | none => (m, [])
  | some w => (m.filter fun p => p.1 != id, [{ w with running := false }])

/-- CameraManager.add_camera (src/camera_manager.py lines 208-219): when
the camera_id is already present, remove_camera it first (stopping the
old worker); then create the new worker, store it under the camera_id
and start it.  Result: (new registry, the workers stopped on the way). -/
def add_camera (m : List (String × Worker)) (id : String) (w : Worker) :
    List (String × Worker) × List Worker :=
  let r :=
    if (lookupCam m id).isSome then remove_camera m id else (m, [])
  ((id, { w with running := true }) :: r.1, r.2)

/-! Theorems. -/

/-- Every clock reading accepted by the pacing loop is at least the
interval after the previous accepted reading (including the initial
last_frame_time). -/
theorem paceAccept_chain (i : ℚ) (last : ℚ) (ts : List ℚ) :
    List.Chain' (fun a b => i ≤ b - a) (last :: paceAccept i last ts) := by
  induction ts generalizing last with
  | nil => simp [paceAccept]
  | cons t ts ih =>
    rw [paceAccept]
    split
    · exact ih last
    · rename_i hge
      rw [List.chain'_cons]
      exact ⟨le_of_not_lt hge, ih t⟩

/-- C7: for every configured fps_limit, the streaming loop of
CameraThread.run accepts a clock reading only when at least
frame_interval = 1 / fps_limit has elapsed since the last accepted
reading, so consecutive delivered frames are never closer together than
1 / fps_limit. -/
theorem frame_pacing_min_interval (fps_limit : ℚ) (last : ℚ) (ts : List ℚ) :
    List.Chain' (fun a b => 1 / fps_limit ≤ b - a)
      (last :: paceAccept (1 / fps_limit) last ts) :=
  paceAccept_chain (1 / fps_limit) last ts

/-- C8 counterexample: a contour whose area equals min_motion_area
exactly does NOT count as motion in the source, which tests with a
strict inequality, refuting the boundary-inclusive reading at
min_motion_area = 500, areas = [500]. -/
theorem detect_motion_boundary_cex :
    ¬ (detect_motion 500 [500] = true ↔ ∃ a ∈ [(500 : ℚ)], 500 ≤ a) := by
  intro h
  have h1 : detect_motion 500 [500] = false := by decide
  have h2 : ∃ a ∈ [(500 : ℚ)], 500 ≤ a := ⟨500, by decide⟩
  rw [h.mpr h2] at h1
  exact Bool.noConfusion h1

/-- C8 (amended): detect_motion reports motion exactly when some
contour area is STRICTLY greater than min_motion_area. -/
theorem detect_motion_iff_strict (min_motion_area : ℚ) (areas : List ℚ) :
    detect_motion min_motion_area areas = true ↔
      ∃ a ∈ areas, min_motion_area < a := by
  simp [detect_motion]

/-- C6: enqueueing into a full bounded buffer is a no-op that drops the
frame and leaves the buffer unchanged, on both the capture side
(capacity 30) and the recorder side (add_frame, capacity 300); the
processed frame is emitted to subscribers regardless of buffer state.
The embedded enqueue is a total function, so the producer is never
blocked. -/
theorem full_buffer_enqueue_noop (buf : List Frame) (f : Frame)
    (rbuf : List Frame) (g : Frame) :
    (30 ≤ buf.length → captureBufferStep buf f = (buf, f)) ∧
    (captureBufferStep buf f).2 = f ∧
    (300 ≤ rbuf.length → add_frame rbuf g = rbuf) := by
  refine ⟨fun h => ?_, rfl, fun h => ?_⟩
  · simp [captureBufferStep, enqueueFrame, Nat.not_lt.mpr h]
  · simp [add_frame, enqueueFrame, Nat.not_lt.mpr h]

/-- Witness for C6 at concrete full buffers of lengths 30 and 300. -/
theorem full_buffer_enqueue_noop_witness :
    captureBufferStep (List.replicate 30 ⟨0, (0, 0)⟩) ⟨1, (0, 0)⟩ =
      (List.replicate 30 ⟨0, (0, 0)⟩, ⟨1, (0, 0)⟩) ∧
    add_frame (List.replicate 300 ⟨0, (0, 0)⟩) ⟨1, (0, 0)⟩ =
      List.replicate 300 ⟨0, (0, 0)⟩ := by
  have h := full_buffer_enqueue_noop (List.replicate 30 ⟨0, (0, 0)⟩)
    ⟨1, (0, 0)⟩ (List.replicate 300 ⟨0, (0, 0)⟩) ⟨1, (0, 0)⟩
  exact ⟨h.1 (by simp), h.2.2 (by simp)⟩

/-- C1: evaluation of the recorder startup and of a full
start-then-stop lifecycle against the metadata store.  The startup
section of RecorderThread.run leaves the store untouched for every
input (the source has no INSERT into recordings), so on an initially
empty store there is NO open Recording row while recording is active,
and the closing update of update_recording_metadata matches no row:
the store stays empty. -/
theorem recording_row_never_inserted :
    (∀ (r : RecorderState) (now : ℚ) (ts : String) (db : List RecordingRow),
      (recorderRunStart r now ts db).2 = db) ∧
    openRows
      (recorderRunStart (RecorderState.init "cam1") 0 "20260101_000000" []).2
      "cam1" = [] ∧
    recorderLifecycle "cam1" 0 10 "20260101_000000" 0 [] = [] := by
  exact ⟨fun _ _ _ _ => rfl, rfl, rfl⟩

/-- Rotation never loses or reorders frames: the written frames are the
buffered frames in order. -/
theorem recordFrames_map_fst (segDur : ℚ) (seg : Nat) (segStart : ℚ)
    (tfs : List TimedFrame) :
    (recordFrames segDur seg segStart tfs).map Prod.fst =
      tfs.map TimedFrame.frame := by
  induction tfs generalizing seg segStart with
  | nil => rfl
  | cons tf rest ih =>
    rw [recordFrames]
    split <;> simp [ih]

/-- The first frame written by the loop goes to the current segment. -/
theorem recordFrames_head_seg (segDur : ℚ) (seg : Nat) (segStart : ℚ)
    (tfs : List TimedFrame) :
    ∀ y ∈ (recordFrames segDur seg segStart tfs).head?, y.2 = seg := by
  cases tfs with
  | nil => intro y hy; simp [recordFrames] at hy
  | cons tf rest =>
    intro y hy
    rw [recordFrames] at hy
    split at hy <;> (simp at hy; rw [← hy])

/-- Segment indices assigned by the recorder loop never decrease. -/
theorem recordFrames_seg_mono (segDur : ℚ) (seg : Nat) (segStart : ℚ)
    (tfs : List TimedFrame) :
    List.Chain' (fun a b => a.2 ≤ b.2) (recordFrames segDur seg segStart tfs) := by
  induction tfs generalizing seg segStart with
  | nil => simp [recordFrames]
  | cons tf rest ih =>
    rw [recordFrames]
    split
    · rw [List.chain'_cons']
      refine ⟨fun y hy => ?_, ih (seg + 1) tf.t⟩
      have h := recordFrames_head_seg segDur (seg + 1) tf.t rest y hy
      simp only [h]
      exact Nat.le_succ seg
    · rw [List.chain'_cons']
      refine ⟨fun y hy => ?_, ih seg segStart⟩
      have h := recordFrames_head_seg segDur seg segStart rest y hy
      simp only [h]
      exact Nat.le_refl seg

/-- C2 counterexample: with segment_duration = 2, segment start 0, the
frame observed at clock 3 triggers the rotation check, yet the source
writes it BEFORE testing the elapsed time, so it lands in the old
segment 0; only the following frame (clock 4) is written to the new
segment 1.  This refutes the claim that the triggering frame is written
to the new segment. -/
theorem rotation_trigger_frame_cex :
    recordFrames 2 0 0
        [⟨⟨0, (0, 0)⟩, 1⟩, ⟨⟨1, (0, 0)⟩, 3⟩, ⟨⟨2, (0, 0)⟩, 4⟩] =
      [(⟨0, (0, 0)⟩, 0), (⟨1, (0, 0)⟩, 0), (⟨2, (0, 0)⟩, 1)] := by
  norm_num [recordFrames]

/-- C2 (amended): segment rotation drops no frame and reorders no frame
(the written sequence is exactly the consumed sequence, with
non-decreasing segment indices); the frame that triggered rotation
detection is written to the OLD segment, rotation taking effect from
the next frame. -/
theorem rotation_preserves_frames (segDur : ℚ) (seg : Nat) (segStart : ℚ)
    (tfs : List TimedFrame) :
    (recordFrames segDur seg segStart tfs).map Prod.fst =
      tfs.map TimedFrame.frame ∧
    List.Chain' (fun a b => a.2 ≤ b.2)
      (recordFrames segDur seg segStart tfs) :=
  ⟨recordFrames_map_fst segDur seg segStart tfs,
   recordFrames_seg_mono segDur seg segStart tfs⟩

/-- Generalisation over the running retry_count: starting at retry_count
k with max_retries k + m, it takes m + 1 further consecutive failures to
reach the terminal error, each non-terminal failure emitting status
false, the error message and the retry sleep; the terminal failure emits
status false, the error message and the terminal error, and the loop
stops without consuming the rest of the attempt list. -/
theorem camRetryRun_replicate_aux (m : Nat) : ∀ (k : Nat) (rest : List Bool),
    camRetryRun (k + m) k (List.replicate (m + 1) true ++ rest) =
      ((List.replicate m
          [CamEvent.statusFalse, CamEvent.errorMsg, CamEvent.sleepRetry]).flatten ++
        [CamEvent.statusFalse, CamEvent.errorMsg, CamEvent.terminalError],
       true) := by
  induction m with
  | zero =>
    intro k rest
    simp [camRetryRun]
  | succ n ih =>
    intro k rest
    have hrep : List.replicate (n + 1 + 1) true ++ rest =
        true :: (List.replicate (n + 1) true ++ rest) := by
      simp [List.replicate_succ]
    rw [hrep, camRetryRun, if_pos rfl, if_neg (by omega : ¬ (k + (n + 1) ≤ k))]
    have hk : k + (n + 1) = (k + 1) + n := by omega
    rw [hk, ih (k + 1) rest]
    simp [List.replicate_succ]

/-- No terminal error occurs inside the non-terminal failure blocks. -/
theorem count_terminal_retry_blocks (n : Nat) :
    ((List.replicate n
        [CamEvent.statusFalse, CamEvent.errorMsg, CamEvent.sleepRetry]).flatten).count
      CamEvent.terminalError = 0 := by
  induction n with
  | zero => rfl
  | succ k ih =>
    simp [List.replicate_succ, List.count_append, ih]

/-- C3 counterexample: with max_retries = 3, after exactly 3 consecutive
connection failures the worker has NOT stopped and has emitted no
terminal error (it is still ready to retry): the terminal check
retry_count >= max_retries runs before the increment, so the bound is
only hit on the 4th consecutive failure.  This refutes the claim as
stated. -/
theorem retry_three_failures_no_terminal_cex :
    (camRetryRun 3 0 [true, true, true]).2 = false ∧
    (camRetryRun 3 0 [true, true, true]).1.count CamEvent.terminalError = 0 := by
  decide

/-- C3 (amended): after max_retries + 1 consecutive connection failures
the worker emits exactly one terminal error and stops, with no further
retry attempts (the remaining attempt list is never consumed); each
failure before the bound emits status(camera_id, false) and an error
message, sleeps retry_interval and increments the retry counter. -/
theorem retry_terminal_after_max_plus_one (max_retries : Nat)
    (rest : List Bool) :
    camRetryRun max_retries 0 (List.replicate (max_retries + 1) true ++ rest) =
      ((List.replicate max_retries
          [CamEvent.statusFalse, CamEvent.errorMsg, CamEvent.sleepRetry]).flatten ++
        [CamEvent.statusFalse, CamEvent.errorMsg, CamEvent.terminalError],
       true) ∧
    (camRetryRun max_retries 0
        (List.replicate (max_retries + 1) true ++ rest)).1.count
      CamEvent.terminalError = 1 := by
  have h := camRetryRun_replicate_aux max_retries 0 rest
  rw [Nat.zero_add] at h
  refine ⟨h, ?_⟩
  rw [h]
  simp [List.count_append, count_terminal_retry_blocks]

/-- C5 counterexample: with a target resolution differing from the frame
shape, a succeeding resize and a raising denoise, process_frame returns
the RESIZED frame (the rebound local variable), not the original input
frame, refuting the claim that the original input is returned
unchanged. -/
theorem process_frame_partial_result_cex :
    process_frame cexEnv ⟨(20, 20), true, false, 0⟩ ⟨0, (10, 10)⟩ =
      (⟨1, (20, 20)⟩, true) ∧
    (⟨1, (20, 20)⟩ : Frame) ≠ ⟨0, (10, 10)⟩ := by
  exact ⟨rfl, by decide⟩

/-- C5 (amended): when a processing step fails, process_frame catches
the failure, signals a non-fatal processing error and returns the
intermediate frame produced by the steps already completed (the input
frame itself only when the first attempted step fails); when no step
fails it returns the fully processed frame with no error.  In all cases
the returned frame is one of the values of the internal chain and no
exception escapes (the embedding is a total function). -/
theorem process_frame_fallback_spec (env : CvEnv) (cfg : ProcConfig)
    (frame0 : Frame) :
    (process_frame env cfg frame0).2 = (fullProcess env cfg frame0).isNone ∧
    (fullProcess env cfg frame0).getD (process_frame env cfg frame0).1 =
      (process_frame env cfg frame0).1 ∧
    (process_frame env cfg frame0).1 ∈ processChain env cfg frame0 := by
  simp only [process_frame, fullProcess, processChain]
  cases h1 : (if frame0.shape = cfg.resolution then some frame0
      else env.resize frame0 cfg.resolution) with
  | none => simp [h1]
  | some f1 =>
    cases h2 : (if cfg.denoise then env.denoise f1 else some f1) with
    | none => simp [h1, h2]
    | some f2 =>
      cases h3 : (if cfg.sharpen then env.sharpen f2 else some f2) with
      | none => simp [h1, h2, h3]
      | some f3 =>
        cases h4 : (if cfg.brightness = 0 then some f3
            else env.convertScaleAbs f3 cfg.brightness) with
        | none => simp [h1, h2, h3, h4]
        | some f4 => simp [h1, h2, h3, h4]

/-- C9 counterexample: a manager holding one worker built from the
default configuration (cached frame_interval 1/30) receives
update_config with fps_limit = 10.  The config dict of the worker now
says 10, but the effective pacing parameter frame_interval is still
1/30, not 1/10, refuting the claim that the effective parameters
reflect the new configuration. -/
theorem update_config_stale_pacing_cex :
    ((CameraManager.update_config ⟨{}, [("cam1", CameraThread.init {})]⟩
        { fps_limit := some 10 }).cameras.map fun p => p.2.frame_interval) =
      [1 / 30] ∧
    ((CameraManager.update_config ⟨{}, [("cam1", CameraThread.init {})]⟩
        { fps_limit := some 10 }).cameras.map fun p => p.2.config.fps_limit) =
      [some 10] ∧
    (1 / 30 : ℚ) ≠ 1 / 10 := by
  refine ⟨rfl, rfl, by norm_num⟩

/-- C9 (amended): CameraManager.update_config merges the new entries
into the manager config and into the config dict of every worker, and
nothing else: the cached effective parameters of each worker (fps_limit,
frame_interval pacing, resolution and the motion-detection settings)
keep their construction-time values. -/
theorem update_config_only_config_dict (m : CameraManager) (new : CamConfig)
    (c : CameraThread) :
    (m.update_config new).cameras =
      m.cameras.map (fun p => (p.1, { p.2 with config := p.2.config.update new })) ∧
    (m.update_config new).config = m.config.update new ∧
    (c.applyConfigUpdate new).fps_limit = c.fps_limit ∧
    (c.applyConfigUpdate new).frame_interval = c.frame_interval ∧
    (c.applyConfigUpdate new).resolution = c.resolution ∧
    (c.applyConfigUpdate new).motion_detection_enabled =
      c.motion_detection_enabled ∧
    (c.applyConfigUpdate new).motion_threshold = c.motion_threshold ∧
    (c.applyConfigUpdate new).min_motion_area = c.min_motion_area ∧
    (c.applyConfigUpdate new).config = c.config.update new :=
  ⟨rfl, rfl, rfl, rfl, rfl, rfl, rfl, rfl, rfl⟩

/-- Counting a key on a cons whose head carries that key. -/
theorem countKey_cons_same (a : String) (w : Worker)
    (xs : List (String × Worker)) :
    countKey ((a, w) :: xs) a = countKey xs a + 1 := by
  simp [countKey, List.filter_cons]

/-- Counting a key on a cons whose head carries another key. -/
theorem countKey_cons_other (a k : String) (w : Worker)
    (xs : List (String × Worker)) (h : ¬ a = k) :
    countKey ((a, w) :: xs) k = countKey xs k := by
  simp [countKey, List.filter_cons, h]

/-- Filtering away all entries of a key leaves no entry counted under
that key. -/
theorem countKey_filter_self (m : List (String × Worker)) (id : String) :
    countKey (m.filter fun p => p.1 != id) id = 0 := by
  induction m with
  | nil => rfl
  | cons x xs ih =>
    obtain ⟨a, wa⟩ := x
    by_cases h : a = id
    · subst h
      simpa [List.filter_cons] using ih
    · simpa [List.filter_cons, h, countKey_cons_other a id wa _ h] using ih

/-- Filtering away the entries of one key does not change the count of
any other key. -/
theorem countKey_filter_other (m : List (String × Worker)) (id k : String)
    (hk : k ≠ id) :
    countKey (m.filter fun p => p.1 != id) k = countKey m k := by
  induction m with
  | nil => rfl
  | cons x xs ih =>
    obtain ⟨a, wa⟩ := x
    by_cases h : a = id
    · subst h
      have hak : ¬ a = k := fun e => hk e.symm
      simpa [List.filter_cons, countKey_cons_other a k wa xs hak] using ih
    · by_cases h2 : a = k
      · subst h2
        simpa [List.filter_cons, h, countKey_cons_same] using ih
      · simpa [List.filter_cons, h, countKey_cons_other a k wa _ h2,
          countKey_cons_other a k ⟨wa.wid, wa.running⟩ _ h2] using ih

/-- A key that fails to look up is counted zero times. -/
theorem lookupCam_none_countKey (m : List (String × Worker)) (id : String)
    (h : lookupCam m id = none) : countKey m id = 0 := by
  induction m with
  | nil => rfl
  | cons x xs ih =>
    obtain ⟨a, w⟩ := x
    rw [lookupCam] at h
    by_cases hx : a = id
    · rw [if_pos hx] at h; exact absurd h (by simp)
    · rw [if_neg hx] at h
      simpa [countKey_cons_other a id w xs hx] using ih h

/-- C10: adding a camera under an already-present camera_id first stops
and removes the existing worker (the stopped-workers output is exactly
the previously registered worker with its running flag cleared, and
empty when the id was absent), then registers and starts the new one;
afterwards the registry holds exactly one entry for that camera_id, and
it is the new running worker, while entries of other camera ids are
counted unchanged. -/
theorem add_camera_replaces_worker (m : List (String × Worker)) (id : String)
    (w : Worker) :
    countKey (add_camera m id w).1 id = 1 ∧
    lookupCam (add_camera m id w).1 id = some { w with running := true } ∧
    (add_camera m id w).2 =
      (match lookupCam m id with
       | none => []
       | some old => [{ old with running := false }]) ∧
    (∀ k, k ≠ id → countKey (add_camera m id w).1 k = countKey m k) := by
  cases h : lookupCam m id with
  | none =>
    have hres1 : (add_camera m id w).1 = (id, { w with running := true }) :: m := by
      simp [add_camera, h]
    refine ⟨?_, ?_, ?_, ?_⟩
    · rw [hres1, countKey_cons_same, lookupCam_none_countKey m id h]
    · rw [hres1, lookupCam, if_pos rfl]
    · simp [add_camera, h]
    · intro k hk
      rw [hres1, countKey_cons_other id k _ m (fun e => hk e.symm)]
  | some old =>
    have hres1 : (add_camera m id w).1 =
        (id, { w with running := true }) :: (m.filter fun p => p.1 != id) := by
      simp [add_camera, remove_camera, h]
    refine ⟨?_, ?_, ?_, ?_⟩
    · rw [hres1, countKey_cons_same, countKey_filter_self]
    · rw [hres1, lookupCam, if_pos rfl]
    · simp [add_camera, remove_camera, h]
    · intro k hk
      rw [hres1, countKey_cons_other id k _ _ (fun e => hk e.symm),
        countKey_filter_other m id k hk]

/-- Witness for C10: replacing the worker of cam1 in a concrete
registry. -/
theorem add_camera_replaces_worker_witness :
    countKey (add_camera [("cam1", ⟨5, true⟩)] "cam1" ⟨7, false⟩).1 "cam1" = 1 ∧
    countKey (add_camera [("cam1", ⟨5, true⟩)] "cam1" ⟨7, false⟩).1 "cam2" =
      countKey [("cam1", (⟨5, true⟩ : Worker))] "cam2" := by
  have h := add_camera_replaces_worker [("cam1", ⟨5, true⟩)] "cam1" ⟨7, false⟩
  exact ⟨h.1, h.2.2.2 "cam2" (by decide)⟩

/-- Inserting into a start_time-ordered list permutes consing. -/
theorem perm_insertByStart (r : RecordingRow) (l : List RecordingRow) :
    List.Perm (insertByStart r l) (r :: l) := by
  induction l with
  | nil => simp [insertByStart]
  | cons x xs ih =>
    rw [insertByStart]
    split
    · exact List.Perm.refl _
    · exact (List.Perm.cons x ih).trans (List.Perm.swap r x xs)

/-- Sorting by start_time is a permutation of the input. -/
theorem perm_sortByStart (l : List RecordingRow) :
    List.Perm (sortByStart l) l := by
  induction l with
  | nil => simp [sortByStart]
  | cons x xs ih =>
    rw [sortByStart]
    exact (perm_insertByStart x (sortByStart xs)).trans (List.Perm.cons x ih)

/-- Insertion preserves start_time-sortedness. -/
theorem sorted_insertByStart (r : RecordingRow) (l : List RecordingRow)
    (h : l.Sorted fun a b => a.start_time ≤ b.start_time) :
    (insertByStart r l).Sorted fun a b => a.start_time ≤ b.start_time := by
  induction l with
  | nil => simp [insertByStart]
  | cons x xs ih =>
    have h1 := List.sorted_cons.mp h
    rw [insertByStart]
    split
    · rename_i hle
      rw [List.sorted_cons]
      refine ⟨?_, h⟩
      intro b hb
      rcases List.mem_cons.mp hb with hb | hb
      · subst hb; exact hle
      · exact le_trans hle (h1.1 b hb)
    · rename_i hgt
      push_neg at hgt
      rw [List.sorted_cons]
      refine ⟨?_, ih h1.2⟩
      intro b hb
      have hmem : b ∈ r :: xs := (perm_insertByStart r xs).mem_iff.mp hb
      rcases List.mem_cons.mp hmem with hb1 | hb1
      · subst hb1; exact le_of_lt hgt
      · exact h1.1 b hb1

/-- The output of sortByStart is sorted by start_time ascending. -/
theorem sorted_sortByStart (l : List RecordingRow) :
    (sortByStart l).Sorted fun a b => a.start_time ≤ b.start_time := by
  induction l with
  | nil => simp [sortByStart]
  | cons x xs ih =>
    rw [sortByStart]
    exact sorted_insertByStart x _ ih

/-- Characterisation of the cleanup loop on a duplicate-free path list:
the files left are those named by no selected path; a store row survives
exactly when its path is not both selected and present on disk; the
deleted paths are the selected ones whose file existed, in selection
order. -/
theorem cleanupLoop_spec (paths : List String) : ∀ (fs : List String)
    (db : List RecordingRow), paths.Nodup →
    cleanupLoop fs db paths =
      (fs.filter fun q => decide (q ∉ paths),
       db.filter fun r => decide (¬ (r.file_path ∈ paths ∧ r.file_path ∈ fs)),
       paths.filter fun p => decide (p ∈ fs)) := by
  induction paths with
  | nil =>
    intro fs db _
    simp [cleanupLoop]
  | cons p ps ih =>
    intro fs db hnd
    have hp1 : p ∉ ps := (List.nodup_cons.mp hnd).1
    have hps : ps.Nodup := (List.nodup_cons.mp hnd).2
    by_cases hfs : p ∈ fs
    · rw [cleanupLoop, if_pos hfs, ih _ _ hps]
      simp only [Prod.mk.injEq]
      refine ⟨?_, ?_, ?_⟩
      · rw [List.filter_filter]
        apply List.filter_congr
        intro q _
        by_cases h1 : q = p <;> by_cases h2 : q ∈ ps <;>
          simp [h1, h2]
      · rw [List.filter_filter]
        apply List.filter_congr
        intro r _
        by_cases h1 : r.file_path = p
        · simp [h1, hfs]
        · by_cases h2 : r.file_path ∈ ps <;> by_cases h3 : r.file_path ∈ fs <;>
            simp [h1, h2, h3, List.mem_filter]
      · rw [List.filter_cons, if_pos (by simpa using hfs)]
        congr 1
        apply List.filter_congr
        intro q hq
        have hqp : q ≠ p := fun e => hp1 (e ▸ hq)
        simp [List.mem_filter, hqp]
    · rw [cleanupLoop, if_neg hfs, ih _ _ hps]
      simp only [Prod.mk.injEq]
      refine ⟨?_, ?_, ?_⟩
      · apply List.filter_congr
        intro q hq
        have hqp : q ≠ p := fun e => hfs (e ▸ hq)
        simp [hqp]
      · apply List.filter_congr
        intro r _
        by_cases h1 : r.file_path = p
        · simp [h1, hfs]
        · by_cases h2 : r.file_path ∈ ps <;> by_cases h3 : r.file_path ∈ fs <;>
            simp [h1, h2, h3]
      · rw [List.filter_cons, if_neg (by simpa using hfs)]

/-- C4 counterexample: a row 10 time units older than the cutoff whose
file is absent from the (empty) file system is NOT removed from the
store by cleanup_old_recordings — the source deletes the metadata row
only inside the branch where the file exists — refuting the claim that
a row whose file is already absent is still removed. -/
theorem cleanup_missing_file_row_kept_cex :
    (cleanup_old_recordings 10 []
      [⟨"cam1", 0, none, "a.mp4", none, none⟩]).2.1 =
      [⟨"cam1", 0, none, "a.mp4", none, none⟩] ∧ (0 : ℚ) < 10 := by
  constructor
  · rfl
  · norm_num

/-- C4 (amended): on a store whose rows carry pairwise distinct file
paths, cleanup removes exactly the rows older than the retention cutoff
WHOSE FILE EXISTS on disk (deleting the file and then the row), working
through the old rows oldest-first by start_time; an old row whose file
is already absent stays in the metadata store, and rows at or after the
cutoff are untouched.  Conjuncts: the surviving files, the surviving
rows, the deletion order (the start_time-ascending old rows filtered by
file existence), and sortedness plus permutation facts for the
selection order. -/
theorem cleanup_characterization (cutoff : ℚ) (fs : List String)
    (db : List RecordingRow) (h : (db.map fun r => r.file_path).Nodup) :
    (cleanup_old_recordings cutoff fs db).1 =
      (fs.filter fun q =>
        decide (¬ ∃ r, r ∈ db ∧ r.start_time < cutoff ∧ r.file_path = q)) ∧
    (cleanup_old_recordings cutoff fs db).2.1 =
      (db.filter fun r =>
        decide (¬ (r.start_time < cutoff ∧ r.file_path ∈ fs))) ∧
    (cleanup_old_recordings cutoff fs db).2.2 =
      (((sortByStart (db.filter fun r => decide (r.start_time < cutoff))).map
        fun r => r.file_path).filter fun p => decide (p ∈ fs)) ∧
    List.Sorted (fun a b => a.start_time ≤ b.start_time)
      (sortByStart (db.filter fun r => decide (r.start_time < cutoff))) ∧
    List.Perm (sortByStart (db.filter fun r => decide (r.start_time < cutoff)))
      (db.filter fun r => decide (r.start_time < cutoff)) := by
  set old := db.filter fun r => decide (r.start_time < cutoff) with hold
  set paths := (sortByStart old).map fun r => r.file_path with hpaths
  have hperm : List.Perm (sortByStart old) old := perm_sortByStart old
  have hpm : List.Perm paths (old.map fun r => r.file_path) :=
    hperm.map fun r => r.file_path
  have hsub : List.Sublist (old.map fun r => r.file_path)
      (db.map fun r => r.file_path) :=
    (List.filter_sublist db).map fun r => r.file_path
  have hnd : paths.Nodup := (hpm.nodup_iff).mpr (h.sublist hsub)
  have hspec := cleanupLoop_spec paths fs db hnd
  have hrw : cleanup_old_recordings cutoff fs db = cleanupLoop fs db paths := rfl
  have hqiff : ∀ q : String, q ∈ paths ↔
      ∃ r, r ∈ db ∧ r.start_time < cutoff ∧ r.file_path = q := by
    intro q
    rw [hpm.mem_iff, List.mem_map]
    constructor
    · rintro ⟨r, hr, he⟩
      have hm := List.mem_filter.mp hr
      exact ⟨r, hm.1, by simpa using hm.2, he⟩
    · rintro ⟨r, hr, hc, he⟩
      exact ⟨r, List.mem_filter.mpr ⟨hr, by simpa using hc⟩, he⟩
  refine ⟨?_, ?_, ?_, sorted_sortByStart old, hperm⟩
  · rw [hrw, hspec]
    apply List.filter_congr
    intro q _
    exact decide_eq_decide.mpr (not_congr (hqiff q))
  · rw [hrw, hspec]
    apply List.filter_congr
    intro r hr
    apply decide_eq_decide.mpr
    apply not_congr
    apply and_congr_left'
    constructor
    · intro hmem
      obtain ⟨r2, hr2, hc2, he2⟩ := (hqiff r.file_path).mp hmem
      have he : r2 = r := List.inj_on_of_nodup_map h hr2 hr he2
      exact he ▸ hc2
    · intro hc
      exact (hqiff r.file_path).mpr ⟨r, hr, hc, rfl⟩
  · rw [hrw, hspec]

/-- Witness for C4 at a concrete store: one old row whose file exists is
removed from both the store and the disk. -/
theorem cleanup_characterization_witness :
    (cleanup_old_recordings 10 ["a.mp4"]
      [⟨"cam1", 0, none, "a.mp4", none, none⟩]).2.1 = [] ∧
    (cleanup_old_recordings 10 ["a.mp4"]
      [⟨"cam1", 0, none, "a.mp4", none, none⟩]).1 = [] := by
  have h := cleanup_characterization 10 ["a.mp4"]
    [⟨"cam1", 0, none, "a.mp4", none, none⟩] (by simp)
  constructor
  · rw [h.2.1]; rfl
  · rw [h.1]
    simp

end VVMS
